import Mathlib

/-!
Shallow embedding of the book-fetcher repository (two Python scripts:
`download_book_script/download_books.py` and `get_book_links/get_book_links.py`)
together with proofs about the embedded functions.

The embedding models:
* JSON values returned by the book-catalog HTTP APIs (`JValue`);
* the Python exception discipline of the scripts (`PyExc`, `Response`,
  `catchAll` for `except Exception`, `catchRequestException` for
  `except requests.RequestException`);
* the search functions of both scripts, the aggregation/deduplication step of
  `main`, the filename sanitization and progress arithmetic of
  `BookFetcher.download_book`, the selection loop of
  `BookFetcher.display_results`, and the input validation of `fetch_books`.

Machine-level caveats of the model, stated once here: `str.isalnum`,
`str.lower` and `int(...)` digit parsing are modelled on their ASCII behaviour
(every string the scripts build or the claims exercise is ASCII), and Python
whitespace is modelled by its six ASCII whitespace characters.
-/

/-- The six ASCII whitespace characters recognised by Python's `str.strip`,
`str.rstrip` and `int(...)`. -/
def pyIsSpace (c : Char) : Bool :=
  c == ' ' || c == '\t' || c == '\n' || c == '\r' || c == '\x0b' || c == '\x0c'

/-- Python `str.lower()` (ASCII behaviour), written on the character list so
that it reduces definitionally in the kernel. -/
def pyLower (s : String) : String :=
  String.mk (s.data.map Char.toLower)

/-- Remove leading and trailing Python whitespace from a character list, as
`str.strip()` does. -/
def pyStripChars (cs : List Char) : List Char :=
  ((cs.dropWhile pyIsSpace).reverse.dropWhile pyIsSpace).reverse

/-- Python `str.strip()`. -/
def pyStrip (s : String) : String :=
  String.mk (pyStripChars s.data)

/-- Remove trailing Python whitespace from a character list, as `str.rstrip()`
does. -/
def pyRstripChars (cs : List Char) : List Char :=
  (cs.reverse.dropWhile pyIsSpace).reverse

/-- Python substring membership `pat in s`. -/
def strContains (s pat : String) : Bool :=
  (List.range (s.data.length + 1)).any (fun i => pat.data.isPrefixOf (s.data.drop i))

/-- Digit-run parser for Python `int(...)`: digits with single underscores
allowed between digits, accumulating the value. The head of the list has
already been checked to be a digit when this is first called. -/
def pyDigitsAux : List Char → Nat → Option Nat
  | [], acc => some acc
  | '_' :: c :: rest, acc =>
    if c.isDigit then pyDigitsAux (c :: rest) acc else none
  | c :: rest, acc =>
    if c.isDigit then pyDigitsAux rest (10 * acc + (c.toNat - 48)) else none

/-- Parse a nonempty digit run (underscore separators allowed between digits),
as the unsigned part of Python `int(...)`. -/
def pyDigits : List Char → Option Nat
  | [] => none
  | c :: rest => if c.isDigit then pyDigitsAux (c :: rest) 0 else none

/-- Python `int(s)`: surrounding whitespace stripped, one optional sign, then a
nonempty digit run; `none` models the `ValueError` raised otherwise. -/
def pyInt (s : String) : Option Int :=
  match pyStripChars s.data with
  | '-' :: rest => (pyDigits rest).map (fun n => -(n : Int))
  | '+' :: rest => (pyDigits rest).map (fun n => (n : Int))
  | cs => (pyDigits cs).map (fun n => (n : Int))

/-- JSON values as decoded by `response.json()`: `None`, booleans, numbers
(integral here; the APIs in play return no fractional fields the scripts
read), strings, lists and dicts. -/
inductive JValue where
  | null
  | bool (b : Bool)
  | num (n : Int)
  | str (s : String)
  | arr (items : List JValue)
  | obj (fields : List (String × JValue))
  deriving Inhabited

/- Decidable equality on `JValue`, written by hand because the automatic
derivation does not handle the nesting through `List`. -/
mutual

def JValue.decEq : (a b : JValue) → Decidable (a = b)
  | .null, .null => isTrue rfl
  | .bool a, .bool b =>
    if h : a = b then isTrue (by rw [h]) else isFalse (fun hh => h (by injection hh))
  | .num a, .num b =>
    if h : a = b then isTrue (by rw [h]) else isFalse (fun hh => h (by injection hh))
  | .str a, .str b =>
    if h : a = b then isTrue (by rw [h]) else isFalse (fun hh => h (by injection hh))
  | .arr a, .arr b =>
    match JValue.decEqList a b with
    | isTrue h => isTrue (by rw [h])
    | isFalse h => isFalse (fun hh => h (by injection hh))
  | .obj a, .obj b =>
    match JValue.decEqFields a b with
    | isTrue h => isTrue (by rw [h])
    | isFalse h => isFalse (fun hh => h (by injection hh))
  | .null, .bool _ | .null, .num _ | .null, .str _ | .null, .arr _ | .null, .obj _
  | .bool _, .null | .bool _, .num _ | .bool _, .str _ | .bool _, .arr _ | .bool _, .obj _
  | .num _, .null | .num _, .bool _ | .num _, .str _ | .num _, .arr _ | .num _, .obj _
  | .str _, .null | .str _, .bool _ | .str _, .num _ | .str _, .arr _ | .str _, .obj _
  | .arr _, .null | .arr _, .bool _ | .arr _, .num _ | .arr _, .str _ | .arr _, .obj _
  | .obj _, .null | .obj _, .bool _ | .obj _, .num _ | .obj _, .str _ | .obj _, .arr _ =>
    isFalse (fun h => JValue.noConfusion h)

def JValue.decEqList : (a b : List JValue) → Decidable (a = b)
  | [], [] => isTrue rfl
  | [], _ :: _ => isFalse (fun h => List.noConfusion h)
  | _ :: _, [] => isFalse (fun h => List.noConfusion h)
  | x :: xs, y :: ys =>
    match JValue.decEq x y with
    | isFalse h => isFalse (fun hh => h (by injection hh))
    | isTrue h1 =>
      match JValue.decEqList xs ys with
      | isFalse h => isFalse (fun hh => h (by injection hh))
      | isTrue h2 => isTrue (by rw [h1, h2])

def JValue.decEqFields : (a b : List (String × JValue)) → Decidable (a = b)
  | [], [] => isTrue rfl
  | [], _ :: _ => isFalse (fun h => List.noConfusion h)
  | _ :: _, [] => isFalse (fun h => List.noConfusion h)
  | (k1, v1) :: xs, (k2, v2) :: ys =>
    if hk : k1 = k2 then
      match JValue.decEq v1 v2 with
      | isFalse h => isFalse (fun hh => by
          injection hh with h1 h2
          exact h (congrArg Prod.snd h1))
      | isTrue hv =>
        match JValue.decEqFields xs ys with
        | isFalse h => isFalse (fun hh => h (by injection hh))
        | isTrue h2 => isTrue (by rw [hk, hv, h2])
    else isFalse (fun hh => by
      injection hh with h1 h2
      exact hk (congrArg Prod.fst h1))

end

instance : DecidableEq JValue := JValue.decEq

/-- Python exceptions distinguished by the scripts' `except` clauses.
`requestException` covers everything `except requests.RequestException`
catches: connection errors from `requests.get`, `HTTPError` from
`raise_for_status()` on a non-2xx status, and the `JSONDecodeError` raised by
`response.json()` (a `RequestException` subclass in the `requests` releases
this code runs against). The remaining constructors are exceptions raised by
Python operations on decoded JSON values. -/
inductive PyExc where
  | requestException
  | keyError (key : String)
  | attributeError
  | typeError
  | indexError
  deriving DecidableEq

/-- Outcome of one `requests.get` call as observed by the scripts:
either one of the three request-level failures, or a decoded JSON body. -/
inductive Response where
  | netError
  | httpError
  | badJson
  | ok (body : JValue)

/-- The common `requests.get ... raise_for_status ... response.json()` prelude
of every search function: yields the decoded body or a `RequestException`. -/
def getJson : Response → Except PyExc JValue
  | .netError => .error .requestException
  | .httpError => .error .requestException
  | .badJson => .error .requestException
  | .ok v => .ok v

/-- Model of `try: ... except Exception: return d` — every exception is
caught. -/
def catchAll (body : Except PyExc α) (d : α) : Except PyExc α :=
  match body with
  | .ok a => .ok a
  | .error _ => .ok d

/-- Model of `try: ... except requests.RequestException: return d` — only
request-level failures are caught, every other exception propagates. -/
def catchRequestException (body : Except PyExc α) (d : α) : Except PyExc α :=
  match body with
  | .ok a => .ok a
  | .error .requestException => .ok d
  | .error e => .error e

namespace JValue

/-- Lookup of a key in the field list of a JSON object (Python dict lookup;
decoded JSON objects have unique keys). -/
def lookupField : List (String × JValue) → String → Option JValue
  | [], _ => none
  | (k, v) :: rest, key => if k = key then some v else lookupField rest key

/-- Python `v.get(key, d)`: field lookup with a default on a dict, and an
`AttributeError` when `v` is not a dict. -/
def getD (v : JValue) (key : String) (d : JValue) : Except PyExc JValue :=
  match v with
  | .obj fields => .ok ((lookupField fields key).getD d)
  | _ => .error .attributeError

/-- Python `v.get(key)`: as `getD` with default `None`. -/
def getOpt (v : JValue) (key : String) : Except PyExc JValue :=
  v.getD key .null

/-- Python `v[key]` for a string key: `KeyError` when the key is absent,
`TypeError` when `v` is not a dict. -/
def item (v : JValue) (key : String) : Except PyExc JValue :=
  match v with
  | .obj fields =>
    match lookupField fields key with
    | some x => .ok x
    | none => .error (.keyError key)
  | _ => .error .typeError

/-- Python `v[i]` for a nonnegative integer index: element of a list, one-char
string of a string, `IndexError` out of range, `TypeError` otherwise. -/
def index (v : JValue) (i : Nat) : Except PyExc JValue :=
  match v with
  | .arr xs =>
    match xs.get? i with
    | some x => .ok x
    | none => .error .indexError
  | .str s =>
    match s.data.get? i with
    | some c => .ok (.str (String.mk [c]))
    | none => .error .indexError
  | _ => .error .typeError

/-- Python iteration `for x in v`: elements of a list, one-char strings of a
string, keys of a dict; `TypeError` on non-iterables. -/
def pyIter (v : JValue) : Except PyExc (List JValue) :=
  match v with
  | .arr xs => .ok xs
  | .str s => .ok (s.data.map (fun c => .str (String.mk [c])))
  | .obj fields => .ok (fields.map (fun p => JValue.str p.1))
  | _ => .error .typeError

/-- Python `v.items()`: key/value pairs of a dict, `AttributeError`
otherwise. -/
def items (v : JValue) : Except PyExc (List (String × JValue)) :=
  match v with
  | .obj fields => .ok fields
  | _ => .error .attributeError

/-- Python `v.lower()`: lower-cased string, `AttributeError` when `v` is not a
string. -/
def asStrLower (v : JValue) : Except PyExc String :=
  match v with
  | .str s => .ok (pyLower s)
  | _ => .error .attributeError

/-- Python `str(v)` as used in the f-string of the second script. The scripts
only ever interpolate `None`, booleans, numbers and strings; the container
cases are abbreviated renderings never exercised by any claim. -/
def pyStr (v : JValue) : String :=
  match v with
  | .null => "None"
  | .bool b => if b then "True" else "False"
  | .num n => toString n
  | .str s => s
  | .arr _ => "[...]"
  | .obj _ => "\x7b...\x7d"

/-- Python `sep.join(v)`: iterates `v`, requires every element to be a string
(`TypeError` otherwise), and intercalates `sep`. Joining a string joins its
characters. -/
def pyJoin (sep : String) (v : JValue) : Except PyExc String := do
  let elems ← v.pyIter
  let strs ← elems.mapM (fun x =>
    match x with
    | JValue.str s => Except.ok s
    | _ => Except.error PyExc.typeError)
  pure (String.intercalate sep strs)

end JValue

namespace DownloadBooks

/-- The `BookResult` dataclass of `download_books.py`. `title` and
`download_url` hold whatever JSON value the payload supplied (Python performs
no type check when constructing the dataclass); `author`, `format` and
`source` are always strings built by the code. -/
structure BookResult where
  title : JValue
  author : String
  format : String
  source : String
  download_url : JValue
  file_size : Option String := none
  deriving DecidableEq, Inhabited

/-- Body of the inner `for fmt in formats` loop of
`BookFetcher.search_open_library`, for one entry `fmt` of
`doc.get("formats", [])`: a case-insensitive substring test for `".pdf"` /
`".epub"` on `fmt.lower()` decides whether a `BookResult` is appended, with
`download_url` the format string itself. -/
def ol_fmt_step (doc : JValue) (acc : List BookResult) (fmt : JValue) :
    Except PyExc (List BookResult) := do
  let fl ← fmt.asStrLower
  if strContains fl ".pdf" || strContains fl ".epub" then do
    let title ← doc.getD "title" (.str "Unknown")
    let authorsV ← doc.getD "author_name" (.arr [.str "Unknown"])
    let author ← JValue.pyJoin ", " authorsV
    pure (acc ++ [{ title := title, author := author,
                    format := if strContains fl ".pdf" then "PDF" else "EPUB",
                    source := "OpenLibrary", download_url := fmt }])
  else
    pure acc

/-- The `for doc` body continued: all results contributed by one `doc`. -/
def ol_doc_results (doc : JValue) : Except PyExc (List BookResult) := do
  let formatsV ← doc.getD "formats" (.arr [])
  let fmts ← formatsV.pyIter
  fmts.foldlM (ol_fmt_step doc) []

/-- Accumulation of one `doc` of the outer loop of
`BookFetcher.search_open_library` onto the running result list. -/
def ol_doc_step (acc : List BookResult) (doc : JValue) : Except PyExc (List BookResult) := do
  let rs ← ol_doc_results doc
  pure (acc ++ rs)

/-- The `try` body of `BookFetcher.search_open_library`. -/
def search_open_library_body (resp : Response) : Except PyExc (List BookResult) := do
  let data ← getJson resp
  let docsV ← data.getD "docs" (.arr [])
  let docs ← docsV.pyIter
  docs.foldlM ol_doc_step []

/-- `BookFetcher.search_open_library` of `download_books.py`: the body wrapped
in `except Exception: ... return []`. -/
def search_open_library (resp : Response) : Except PyExc (List BookResult) :=
  catchAll (search_open_library_body resp) []

/-- Body of the inner `for fmt_type, url in formats.items()` loop of
`BookFetcher.search_project_gutenberg`, for one key/value pair `p` of
`book.get("formats", {})`: a case-insensitive substring test for `"pdf"` /
`"epub"` on the key decides whether a `BookResult` is appended, with
`download_url` the mapped value. The author expression is the literal
`", ".join(book.get("authors", [{"name": "Unknown"}])[0].get("name"))` —
note the join applies to the single name returned by `.get("name")`. -/
def pg_fmt_step (book : JValue) (acc : List BookResult) (p : String × JValue) :
    Except PyExc (List BookResult) := do
  let fl := pyLower p.1
  if strContains fl "pdf" || strContains fl "epub" then do
    let title ← book.getD "title" (.str "Unknown")
    let authorsV ← book.getD "authors" (.arr [.obj [("name", .str "Unknown")]])
    let firstAuthor ← authorsV.index 0
    let nameV ← firstAuthor.getOpt "name"
    let author ← JValue.pyJoin ", " nameV
    pure (acc ++ [{ title := title, author := author,
                    format := if strContains fl "pdf" then "PDF" else "EPUB",
                    source := "Project Gutenberg", download_url := p.2 }])
  else
    pure acc

/-- The `for book` body continued: all results contributed by one `book`. -/
def pg_book_results (book : JValue) : Except PyExc (List BookResult) := do
  let formatsV ← book.getD "formats" (.obj [])
  let fmtItems ← formatsV.items
  fmtItems.foldlM (pg_fmt_step book) []

/-- Accumulation of one `book` of the outer loop of
`BookFetcher.search_project_gutenberg` onto the running result list. -/
def pg_book_step (acc : List BookResult) (book : JValue) : Except PyExc (List BookResult) := do
  let rs ← pg_book_results book
  pure (acc ++ rs)

/-- The `try` body of `BookFetcher.search_project_gutenberg`. -/
def search_project_gutenberg_body (resp : Response) : Except PyExc (List BookResult) := do
  let data ← getJson resp
  let booksV ← data.getD "results" (.arr [])
  let books ← booksV.pyIter
  books.foldlM pg_book_step []

/-- `BookFetcher.search_project_gutenberg` of `download_books.py`: the body
wrapped in `except Exception: ... return []`. -/
def search_project_gutenberg (resp : Response) : Except PyExc (List BookResult) :=
  catchAll (search_project_gutenberg_body resp) []

end DownloadBooks

namespace DownloadBooks

/-- One assignment `d[k] = v` on a Python dict represented as an ordered
key/value list: an existing key keeps its position (and its original key
object) and gets the new value; a new key is appended at the end. -/
def dictInsert (m : List (JValue × BookResult)) (k : JValue) (v : BookResult) :
    List (JValue × BookResult) :=
  if ∃ p ∈ m, p.1 = k then m.map (fun p => if p.1 = k then (p.1, v) else p)
  else m ++ [(k, v)]

/-- The dict comprehension `{r.download_url: r for r in results}` of `main`. -/
def buildDict (rs : List BookResult) : List (JValue × BookResult) :=
  rs.foldl (fun m r => dictInsert m r.download_url r) []

/-- The deduplication `list({r.download_url: r for r in results}.values())`
of `main`. -/
def dedupByUrl (rs : List BookResult) : List BookResult :=
  (buildDict rs).map Prod.snd

/-- The whole aggregation of `main`: per-source result lists are concatenated
in query order (`results.extend(...)` per source) and then deduplicated by
`download_url`. -/
def aggregate (lists : List (List BookResult)) : List BookResult :=
  dedupByUrl lists.flatten

/-- The `safe_title` expression of `BookFetcher.download_book`:
`"".join(c for c in title if c.isalnum() or c in (' ', '-', '_')).rstrip()`. -/
def safe_title (title : String) : String :=
  String.mk (pyRstripChars (title.data.filter
    (fun c => c.isAlphanum || c == ' ' || c == '-' || c == '_')))

/-- The filename f-string of `BookFetcher.download_book`:
`f"{safe_title}.{book_result.format.lower()}"`. -/
def download_filename (title fmt : String) : String :=
  safe_title title ++ "." ++ pyLower fmt

/-- The sequence of percent values computed by the chunk loop of
`BookFetcher.download_book` when `total_size` is nonzero: empty chunks are
skipped (`if chunk:`), each nonempty chunk adds its length to `downloaded` and
reports `downloaded / total_size * 100`. -/
def progress_percents (total_size downloaded : Nat) : List Nat → List ℚ
  | [] => []
  | c :: cs =>
    if c = 0 then progress_percents total_size downloaded cs
    else ((downloaded + c : ℚ) / (total_size : ℚ) * 100)
      :: progress_percents total_size (downloaded + c) cs

/-- Outcome of one iteration of the selection loop of
`BookFetcher.display_results` on one input line. -/
inductive StepRes where
  | quit
  | select (r : BookResult)
  | invalid
  deriving DecidableEq

/-- One iteration of the selection loop: `'q'` (case-insensitive) quits;
otherwise `int(choice) - 1` must parse and lie in range, else the iteration
is invalid (either the explicit range message or the `ValueError` message) and
the loop re-prompts. -/
def selection_step (results : List BookResult) (choice : String) : StepRes :=
  if pyLower choice = "q" then .quit
  else
    match pyInt choice with
    | none => .invalid
    | some n =>
      if 0 ≤ n - 1 ∧ n - 1 < (results.length : Int) then
        .select (results.getD (n - 1).toNat default)
      else .invalid

/-- The `while True` selection loop of `BookFetcher.display_results`, run on an
explicit list of input lines. Returns the outcome (`none` when the supplied
input lines run out, `some none` for quit, `some (some r)` for a selection),
the number of rejected inputs (each rejection prints one error message and
re-prompts), and the unconsumed input lines. -/
def display_loop (results : List BookResult) : List String → Nat →
    Option (Option BookResult) × Nat × List String
  | [], errors => (none, errors, [])
  | choice :: rest, errors =>
    match selection_step results choice with
    | .quit => (some none, errors, rest)
    | .select r => (some (some r), errors, rest)
    | .invalid => display_loop results rest (errors + 1)

/-- `BookFetcher.display_results` on an explicit list of input lines: an empty
result list short-circuits to `None` before any prompt (consuming no input),
otherwise the selection loop runs. -/
def display_results (results : List BookResult) (inputs : List String) :
    Option (Option BookResult) × Nat × List String :=
  if results.isEmpty then (some none, 0, inputs)
  else display_loop results inputs 0

end DownloadBooks

namespace GetBookLinks

/-- One entry of the dict lists returned by the search functions of
`get_book_links.py`: keys `title`, `authors`, `download_link`. The values hold
whatever JSON values the payload supplied (`download_link` is a string for the
Open Library function, which builds it with an f-string). -/
structure LinkRes where
  title : JValue
  authors : JValue
  download_link : JValue
  deriving DecidableEq, Inhabited

/-- The dict built for one `book` in the list comprehension of
`search_google_books`: `book['volumeInfo']` and `book['accessInfo']` are plain
subscripts (a `KeyError` propagates when absent), the inner fields use `.get`
with defaults. -/
def gb_item (book : JValue) : Except PyExc LinkRes := do
  let vi1 ← book.item "volumeInfo"
  let title ← vi1.getOpt "title"
  let vi2 ← book.item "volumeInfo"
  let authors ← vi2.getD "authors" (.arr [])
  let ai ← book.item "accessInfo"
  let link ← ai.getD "webReaderLink" (.str "N/A")
  pure { title := title, authors := authors, download_link := link }

/-- The `try` body of `search_google_books` of `get_book_links.py`. -/
def search_google_books_body (resp : Response) : Except PyExc (List LinkRes) := do
  let data ← getJson resp
  let booksV ← data.getD "items" (.arr [])
  let books ← booksV.pyIter
  books.mapM gb_item

/-- `search_google_books` of `get_book_links.py`: the body wrapped in
`except requests.RequestException: ... return []` — only request-level
failures are caught. -/
def search_google_books (resp : Response) : Except PyExc (List LinkRes) :=
  catchRequestException (search_google_books_body resp) []

/-- The dict built for one `book` in the list comprehension of
`search_open_library` of `get_book_links.py`: every field access uses `.get`,
and `download_link` is the f-string
`f"https://openlibrary.org{book.get('key')}"`. -/
def ol_item (book : JValue) : Except PyExc LinkRes := do
  let title ← book.getOpt "title"
  let authors ← book.getD "author_name" (.arr [])
  let key ← book.getOpt "key"
  pure { title := title, authors := authors,
         download_link := .str ("https://openlibrary.org" ++ key.pyStr) }

/-- The `try` body of `search_open_library` of `get_book_links.py`. -/
def search_open_library_body (resp : Response) : Except PyExc (List LinkRes) := do
  let data ← getJson resp
  let booksV ← data.getD "docs" (.arr [])
  let books ← booksV.pyIter
  books.mapM ol_item

/-- `search_open_library` of `get_book_links.py`: the body wrapped in
`except requests.RequestException: ... return []`. -/
def search_open_library (resp : Response) : Except PyExc (List LinkRes) :=
  catchRequestException (search_open_library_body resp) []

/-- `fetch_books` of `get_book_links.py`, with the two `requests.get`
outcomes passed explicitly. Both entered names are stripped; when either is
empty the function prints a message and returns (`none`) before any search
function is called — the responses are never consulted. Otherwise both
sources are queried in order and the function ends with the concatenated list
(an exception escaping a search function propagates out of `fetch_books`). -/
def fetch_books (book_name author_name : String) (google_resp ol_resp : Response) :
    Option (Except PyExc (List LinkRes)) :=
  let book := pyStrip book_name
  let author := pyStrip author_name
  if book = "" ∨ author = "" then none
  else some (do
    let google_books ← search_google_books google_resp
    let open_library_books ← search_open_library ol_resp
    pure (google_books ++ open_library_books))

end GetBookLinks

namespace DownloadBooks

/-- First-match lookup in the ordered key/value list representing the Python
dict built by `main`; with the unique-key invariant maintained by
`dictInsert` it is exactly Python dict lookup. -/
def lookupKV : List (JValue × BookResult) → JValue → Option BookResult
  | [], _ => none
  | (k, v) :: rest, u => if k = u then some v else lookupKV rest u

/-- The last entry of a result list whose `download_url` equals `u` (the entry
a last-write-wins keyed build keeps for `u`). -/
def lastWithUrl (u : JValue) : List BookResult → Option BookResult
  | [] => none
  | r :: rs =>
    match lastWithUrl u rs with
    | some x => some x
    | none => if r.download_url = u then some r else none

end DownloadBooks

namespace DownloadBooks

/-- Two sample results that share one download URL but differ otherwise, plus
one with a distinct URL; concrete inputs for the aggregation facts. -/
def sampleA : BookResult :=
  { title := .str "first", author := "Author One", format := "PDF",
    source := "OpenLibrary", download_url := .str "http://x/book.pdf" }

/-- Second sample result, same `download_url` as `sampleA`. -/
def sampleB : BookResult :=
  { title := .str "second", author := "Author Two", format := "PDF",
    source := "Project Gutenberg", download_url := .str "http://x/book.pdf" }

/-- Third sample result with a distinct `download_url`. -/
def sampleC : BookResult :=
  { title := .str "third", author := "Author Three", format := "EPUB",
    source := "Project Gutenberg", download_url := .str "http://y/other.epub" }

theorem lookupKV_map_replace (k : JValue) (v : BookResult) :
    ∀ m : List (JValue × BookResult), (∃ p ∈ m, p.1 = k) →
      lookupKV (m.map (fun p => if p.1 = k then (p.1, v) else p)) k = some v := by
  intro m
  induction m with
  | nil => rintro ⟨p, hp, -⟩; cases hp
  | cons q rest ih =>
    rintro ⟨p, hp, hpk⟩
    obtain ⟨qk, qv⟩ := q
    by_cases hq : qk = k
    · simp only [List.map_cons]
      rw [if_pos (show (qk, qv).1 = k from hq)]
      simp [lookupKV, hq]
    · have hrest : ∃ p ∈ rest, p.1 = k := by
        rcases List.mem_cons.1 hp with h | h
        · exfalso; apply hq; rw [← hpk, h]
        · exact ⟨p, h, hpk⟩
      simp only [List.map_cons]
      rw [if_neg (by simpa using hq)]
      simpa [lookupKV, hq] using ih hrest

theorem lookupKV_map_replace_ne (k : JValue) (v : BookResult) (u : JValue) (hne : u ≠ k) :
    ∀ m : List (JValue × BookResult),
      lookupKV (m.map (fun p => if p.1 = k then (p.1, v) else p)) u = lookupKV m u := by
  intro m
  induction m with
  | nil => rfl
  | cons q rest ih =>
    obtain ⟨qk, qv⟩ := q
    by_cases hq : qk = k
    · have hqu : qk ≠ u := by rw [hq]; exact fun h => hne h.symm
      simp only [List.map_cons]
      rw [if_pos (show (qk, qv).1 = k from hq)]
      simp [lookupKV, hqu, ih]
    · simp only [List.map_cons]
      rw [if_neg (by simpa using hq)]
      by_cases hqu : qk = u
      · simp [lookupKV, hqu]
      · simp [lookupKV, hqu, ih]

theorem lookupKV_append (m1 m2 : List (JValue × BookResult)) (u : JValue) :
    lookupKV (m1 ++ m2) u =
      match lookupKV m1 u with
      | some x => some x
      | none => lookupKV m2 u := by
  induction m1 with
  | nil => simp [lookupKV]
  | cons q rest ih =>
    obtain ⟨qk, qv⟩ := q
    by_cases hq : qk = u
    · simp [lookupKV, hq]
    · simp [lookupKV, hq, ih]

theorem lookupKV_eq_none_of_not_mem (u : JValue) :
    ∀ m : List (JValue × BookResult), ¬(∃ p ∈ m, p.1 = u) → lookupKV m u = none := by
  intro m
  induction m with
  | nil => intro _; rfl
  | cons q rest ih =>
    intro hn
    obtain ⟨qk, qv⟩ := q
    have hq : qk ≠ u := fun h => hn ⟨(qk, qv), List.mem_cons_self _ _, h⟩
    have hrest : ¬(∃ p ∈ rest, p.1 = u) := fun ⟨p, hp, hpk⟩ =>
      hn ⟨p, List.mem_cons_of_mem _ hp, hpk⟩
    simp [lookupKV, hq, ih hrest]

theorem lookupKV_dictInsert (m : List (JValue × BookResult)) (k : JValue) (v : BookResult)
    (u : JValue) :
    lookupKV (dictInsert m k v) u = if u = k then some v else lookupKV m u := by
  unfold dictInsert
  by_cases hex : ∃ p ∈ m, p.1 = k
  · rw [if_pos hex]
    by_cases hu : u = k
    · subst hu; rw [if_pos rfl]; exact lookupKV_map_replace u v m hex
    · rw [if_neg hu]; exact lookupKV_map_replace_ne k v u hu m
  · rw [if_neg hex, lookupKV_append]
    by_cases hu : u = k
    · subst hu
      rw [lookupKV_eq_none_of_not_mem u m hex]
      simp [lookupKV]
    · have hku : k ≠ u := fun h => hu h.symm
      cases h : lookupKV m u <;> simp [lookupKV, hku, hu]

end DownloadBooks

namespace DownloadBooks

theorem lookupKV_foldl (u : JValue) :
    ∀ (l : List BookResult) (m : List (JValue × BookResult)),
      lookupKV (l.foldl (fun m r => dictInsert m r.download_url r) m) u =
        match lastWithUrl u l with
        | some x => some x
        | none => lookupKV m u := by
  intro l
  induction l with
  | nil => intro m; simp [lastWithUrl]
  | cons r rs ih =>
    intro m
    simp only [List.foldl_cons]
    rw [ih]
    cases h : lastWithUrl u rs with
    | some x => simp [lastWithUrl, h]
    | none =>
      rw [lookupKV_dictInsert]
      by_cases hu : u = r.download_url
      · subst hu
        simp [lastWithUrl, h]
      · have hru : ¬ r.download_url = u := fun hh => hu hh.symm
        simp [lastWithUrl, h, hu, hru]

theorem buildDict_key_urls :
    ∀ (l : List BookResult) (m : List (JValue × BookResult)),
      (∀ p ∈ m, p.2.download_url = p.1) →
      ∀ p ∈ l.foldl (fun m r => dictInsert m r.download_url r) m, p.2.download_url = p.1 := by
  intro l
  induction l with
  | nil => intro m hm; simpa using hm
  | cons r rs ih =>
    intro m hm
    simp only [List.foldl_cons]
    apply ih
    intro p hp
    unfold dictInsert at hp
    by_cases hex : ∃ q ∈ m, q.1 = r.download_url
    · rw [if_pos hex] at hp
      rcases List.mem_map.1 hp with ⟨q, hq, hfq⟩
      by_cases hqk : q.1 = r.download_url
      · rw [if_pos hqk] at hfq
        rw [← hfq]
        simpa using hqk.symm
      · rw [if_neg hqk] at hfq
        rw [← hfq]
        exact hm q hq
    · rw [if_neg hex] at hp
      rcases List.mem_append.1 hp with h | h
      · exact hm p h
      · rcases List.mem_singleton.1 h with rfl
        rfl

theorem buildDict_keys_nodup :
    ∀ (l : List BookResult) (m : List (JValue × BookResult)),
      (m.map Prod.fst).Nodup →
      ((l.foldl (fun m r => dictInsert m r.download_url r) m).map Prod.fst).Nodup := by
  intro l
  induction l with
  | nil => intro m hm; simpa using hm
  | cons r rs ih =>
    intro m hm
    simp only [List.foldl_cons]
    apply ih
    unfold dictInsert
    by_cases hex : ∃ q ∈ m, q.1 = r.download_url
    · rw [if_pos hex]
      have hmap : (m.map (fun p => if p.1 = r.download_url then (p.1, r) else p)).map Prod.fst
          = m.map Prod.fst := by
        rw [List.map_map]
        apply List.map_congr_left
        intro p _
        by_cases hp : p.1 = r.download_url
        · simp [hp]
        · simp [hp]
      rw [hmap]
      exact hm
    · rw [if_neg hex]
      rw [List.map_append]
      simp only [List.map_cons, List.map_nil]
      rw [List.nodup_append]
      refine ⟨hm, List.nodup_singleton _, ?_⟩
      intro a ha hb
      rcases List.mem_singleton.1 hb with rfl
      rcases List.mem_map.1 ha with ⟨p, hp, hpk⟩
      exact hex ⟨p, hp, hpk⟩

theorem lookupKV_of_mem_nodup :
    ∀ (m : List (JValue × BookResult)), (m.map Prod.fst).Nodup →
      ∀ k v, (k, v) ∈ m → lookupKV m k = some v := by
  intro m
  induction m with
  | nil => intro _ k v hv; cases hv
  | cons q rest ih =>
    intro hnd k v hv
    obtain ⟨qk, qv⟩ := q
    simp only [List.map_cons, List.nodup_cons] at hnd
    rcases List.mem_cons.1 hv with h | h
    · injection h with h1 h2
      subst h1
      subst h2
      simp [lookupKV]
    · have hk : qk ≠ k := by
        intro hqk
        apply hnd.1
        apply List.mem_map.2
        exact ⟨(k, v), h, by simp [hqk]⟩
      simp [lookupKV, hk]
      exact ih hnd.2 k v h

end DownloadBooks

namespace DownloadBooks

theorem mem_dedupByUrl_last (l : List BookResult) (r : BookResult)
    (h : r ∈ dedupByUrl l) : lastWithUrl r.download_url l = some r := by
  unfold dedupByUrl at h
  rcases List.mem_map.1 h with ⟨p, hp, hsnd⟩
  have hurl : p.2.download_url = p.1 := buildDict_key_urls l [] (by simp) p hp
  have hnd : ((buildDict l).map Prod.fst).Nodup := buildDict_keys_nodup l [] (by simp)
  have hmem : (p.1, p.2) ∈ buildDict l := by simpa using hp
  have hlk : lookupKV (buildDict l) p.1 = some p.2 :=
    lookupKV_of_mem_nodup (buildDict l) hnd p.1 p.2 hmem
  unfold buildDict at hlk
  rw [lookupKV_foldl] at hlk
  rw [← hsnd, hurl]
  cases hlast : lastWithUrl p.1 l with
  | none => rw [hlast] at hlk; simp [lookupKV] at hlk
  | some x => rw [hlast] at hlk; simpa using hlk

/-- C1: the claim that, when two entries share a download_url, the aggregated
output contains the FIRST such entry in overall input order is false at the
concrete input [[sampleA], [sampleB]] (equal URLs, different entries): the
aggregation yields [sampleB] and sampleA is not in the output. -/
theorem C1_first_wins_false :
    sampleA.download_url = sampleB.download_url ∧ sampleA ≠ sampleB ∧
    aggregate [[sampleA], [sampleB]] = [sampleB] ∧
    sampleA ∉ aggregate [[sampleA], [sampleB]] := by
  refine ⟨rfl, by decide, rfl, by decide⟩

/-- C1 (amended): for every input sequence of per-source result lists, the
entry the aggregated output keeps for a URL is the LAST entry with that URL
encountered in overall input order — the dict build
`{r.download_url: r for r in results}` is last-write-wins. -/
theorem C1_kept_entry_is_last (lists : List (List BookResult)) (r : BookResult)
    (h : r ∈ aggregate lists) :
    lastWithUrl r.download_url lists.flatten = some r :=
  mem_dedupByUrl_last lists.flatten r h

/-- Witness for C1 (amended) at the concrete duplicate input. -/
theorem C1_kept_entry_is_last_witness :
    sampleB ∈ aggregate [[sampleA], [sampleB]] ∧
    lastWithUrl sampleB.download_url ([[sampleA], [sampleB]] : List (List BookResult)).flatten
      = some sampleB :=
  ⟨by decide, C1_kept_entry_is_last [[sampleA], [sampleB]] sampleB (by decide)⟩

/-- C2: for every input sequence of per-source result lists, no two entries of
the aggregated output share a download_url, and the empty input aggregates to
the empty output (no error). -/
theorem C2_no_duplicate_urls :
    (∀ lists : List (List BookResult),
      (aggregate lists).Pairwise (fun a b => a.download_url ≠ b.download_url)) ∧
    aggregate [] = [] := by
  constructor
  · intro lists
    unfold aggregate dedupByUrl
    rw [List.pairwise_map]
    have hnd : ((buildDict lists.flatten).map Prod.fst).Nodup :=
      buildDict_keys_nodup lists.flatten [] (by simp)
    have hurl : ∀ p ∈ buildDict lists.flatten, p.2.download_url = p.1 :=
      buildDict_key_urls lists.flatten [] (by simp)
    have hnd2 : (buildDict lists.flatten).Pairwise (fun p q => p.1 ≠ q.1) :=
      List.pairwise_map.mp hnd
    refine hnd2.imp_of_mem ?_
    intro p q hp hq hne
    rw [hurl p hp, hurl q hq]
    exact hne
  · rfl

end DownloadBooks

theorem except_bind_ok_inv {ε α β : Type} {e : Except ε α} {k : α → Except ε β} {b : β}
    (h : e >>= k = .ok b) : ∃ a, e = .ok a ∧ k a = .ok b := by
  cases e with
  | ok a => exact ⟨a, rfl, h⟩
  | error err => exact Except.noConfusion h

theorem catchAll_ok {α : Type} (body : Except PyExc α) (d : α) :
    ∃ a, catchAll body d = Except.ok a := by
  cases body with
  | ok a => exact ⟨a, rfl⟩
  | error e => exact ⟨d, rfl⟩

theorem foldlM_ok_forall {α β ε : Type} (P : β → Prop)
    (f : List β → α → Except ε (List β))
    (hf : ∀ acc x l, (∀ r ∈ acc, P r) → f acc x = .ok l → ∀ r ∈ l, P r) :
    ∀ (xs : List α) (acc l : List β), (∀ r ∈ acc, P r) →
      xs.foldlM f acc = .ok l → ∀ r ∈ l, P r := by
  intro xs
  induction xs with
  | nil =>
    intro acc l hacc h
    have hl : acc = l := Except.ok.inj h
    subst hl
    exact hacc
  | cons x rest ih =>
    intro acc l hacc h
    rw [List.foldlM_cons] at h
    obtain ⟨acc2, hx, h⟩ := except_bind_ok_inv h
    exact ih acc2 l (hf acc x acc2 hacc hx) h

theorem mapM_ok_length {α β ε : Type} (f : α → Except ε β) :
    ∀ xs : List α, (∀ x ∈ xs, ∃ y, f x = .ok y) →
      ∃ l, xs.mapM f = .ok l ∧ l.length = xs.length := by
  intro xs
  induction xs with
  | nil => exact fun _ => ⟨[], rfl, rfl⟩
  | cons x rest ih =>
    intro h
    obtain ⟨y, hy⟩ := h x (List.mem_cons_self _ _)
    obtain ⟨l, hl, hlen⟩ := ih (fun z hz => h z (List.mem_cons_of_mem _ hz))
    refine ⟨y :: l, ?_, by simp [hlen]⟩
    rw [List.mapM_cons, hy, hl]
    rfl

/-- C3: the claim that every search function returns a sequence and never
propagates an exception fails in `get_book_links.py`: on a well-formed 2xx
JSON payload whose single item lacks the `volumeInfo` key,
`search_google_books` raises `KeyError` (only `requests.RequestException` is
caught), refuting the claim at this concrete input. -/
theorem C3_shape_error_propagates :
    GetBookLinks.search_google_books (.ok (.obj [("items", .arr [.obj []])]))
      = .error (.keyError "volumeInfo") := rfl

/-- C3 (amended): the two search functions of `download_books.py` catch every
exception and always return a list, and the two search functions of
`get_book_links.py` return the empty list on every request-level failure
(network error, non-2xx status, malformed JSON) — but, per the
counterexample, not on payloads of unexpected shape. -/
theorem C3_error_handling :
    (∀ resp, ∃ l, DownloadBooks.search_open_library resp = .ok l) ∧
    (∀ resp, ∃ l, DownloadBooks.search_project_gutenberg resp = .ok l) ∧
    (GetBookLinks.search_google_books .netError = .ok [] ∧
      GetBookLinks.search_google_books .httpError = .ok [] ∧
      GetBookLinks.search_google_books .badJson = .ok [] ∧
      GetBookLinks.search_open_library .netError = .ok [] ∧
      GetBookLinks.search_open_library .httpError = .ok [] ∧
      GetBookLinks.search_open_library .badJson = .ok []) := by
  refine ⟨?_, ?_, rfl, rfl, rfl, rfl, rfl, rfl⟩
  · intro resp
    exact catchAll_ok (DownloadBooks.search_open_library_body resp) []
  · intro resp
    exact catchAll_ok (DownloadBooks.search_project_gutenberg_body resp) []

namespace DownloadBooks

/-- Property of every result kept by the OpenLibrary filter of
`download_books.py`: its `download_url` is the format string itself and that
string contains `".pdf"` or `".epub"` case-insensitively. -/
def pdfEpubUrl (r : BookResult) : Prop :=
  ∃ s, r.download_url = JValue.str s ∧
    (strContains (pyLower s) ".pdf" = true ∨ strContains (pyLower s) ".epub" = true)

theorem ol_fmt_step_preserves (doc : JValue) (acc : List BookResult) (fmt : JValue)
    (l : List BookResult) (hacc : ∀ r ∈ acc, pdfEpubUrl r)
    (h : ol_fmt_step doc acc fmt = .ok l) : ∀ r ∈ l, pdfEpubUrl r := by
  unfold ol_fmt_step at h
  obtain ⟨fl, hfl, h⟩ := except_bind_ok_inv h
  cases fmt with
  | str s =>
    have hfl2 : pyLower s = fl := by simpa [JValue.asStrLower] using hfl
    subst hfl2
    by_cases hg : (strContains (pyLower s) ".pdf" || strContains (pyLower s) ".epub") = true
    · rw [if_pos hg] at h
      obtain ⟨title, ht, h⟩ := except_bind_ok_inv h
      obtain ⟨authorsV, ha, h⟩ := except_bind_ok_inv h
      obtain ⟨author, hj, h⟩ := except_bind_ok_inv h
      have hl := Except.ok.inj h
      intro r hr
      rw [← hl] at hr
      rcases List.mem_append.1 hr with hr | hr
      · exact hacc r hr
      · rcases List.mem_singleton.1 hr with rfl
        refine ⟨s, rfl, ?_⟩
        simpa using hg
    · rw [if_neg hg] at h
      have hl : acc = l := Except.ok.inj h
      subst hl
      exact hacc
  | null => simp [JValue.asStrLower] at hfl
  | bool b => simp [JValue.asStrLower] at hfl
  | num n => simp [JValue.asStrLower] at hfl
  | arr xs => simp [JValue.asStrLower] at hfl
  | obj fs => simp [JValue.asStrLower] at hfl

theorem ol_doc_results_filter (doc : JValue) (rs : List BookResult)
    (h : ol_doc_results doc = .ok rs) : ∀ r ∈ rs, pdfEpubUrl r := by
  unfold ol_doc_results at h
  obtain ⟨formatsV, h1, h⟩ := except_bind_ok_inv h
  obtain ⟨fmts, h2, h⟩ := except_bind_ok_inv h
  exact foldlM_ok_forall pdfEpubUrl (ol_fmt_step doc)
    (fun acc x l hacc hx => ol_fmt_step_preserves doc acc x l hacc hx)
    fmts [] rs (by simp) h

theorem ol_doc_step_preserves (acc : List BookResult) (doc : JValue)
    (l : List BookResult) (hacc : ∀ r ∈ acc, pdfEpubUrl r)
    (h : ol_doc_step acc doc = .ok l) : ∀ r ∈ l, pdfEpubUrl r := by
  unfold ol_doc_step at h
  obtain ⟨rs, h1, h⟩ := except_bind_ok_inv h
  have hl := Except.ok.inj h
  intro r hr
  rw [← hl] at hr
  rcases List.mem_append.1 hr with hr | hr
  · exact hacc r hr
  · exact ol_doc_results_filter doc rs h1 r hr

theorem search_open_library_filter (resp : Response) (l : List BookResult)
    (h : search_open_library resp = .ok l) : ∀ r ∈ l, pdfEpubUrl r := by
  unfold search_open_library at h
  cases hb : search_open_library_body resp with
  | error e =>
    rw [hb] at h
    have hl : ([] : List BookResult) = l := Except.ok.inj h
    subst hl
    intro r hr
    cases hr
  | ok lb =>
    rw [hb] at h
    have heq : lb = l := Except.ok.inj h
    rw [← heq]
    unfold search_open_library_body at hb
    obtain ⟨data, h1, hb⟩ := except_bind_ok_inv hb
    obtain ⟨docsV, h2, hb⟩ := except_bind_ok_inv hb
    obtain ⟨docs, h3, hb⟩ := except_bind_ok_inv hb
    exact foldlM_ok_forall pdfEpubUrl ol_doc_step
      (fun acc x l2 hacc hx => ol_doc_step_preserves acc x l2 hacc hx)
      docs [] lb (by simp) hb

theorem pg_fmt_fold_no_match (book : JValue) :
    ∀ (fs : List (String × JValue)) (acc : List BookResult),
      (∀ p ∈ fs, (strContains (pyLower p.1) "pdf" || strContains (pyLower p.1) "epub") = false) →
      fs.foldlM (pg_fmt_step book) acc = .ok acc := by
  intro fs
  induction fs with
  | nil => intro acc _; rfl
  | cons p rest ih =>
    intro acc hfs
    rw [List.foldlM_cons]
    have hp := hfs p (List.mem_cons_self _ _)
    have hstep : pg_fmt_step book acc p = .ok acc := by
      simp only [pg_fmt_step]
      rw [hp]
      rfl
    rw [hstep]
    exact ih acc (fun q hq => hfs q (List.mem_cons_of_mem _ hq))

theorem pg_book_results_no_match (book : JValue) (fs : List (String × JValue))
    (hfmt : book.getD "formats" (.obj []) = .ok (.obj fs))
    (hfs : ∀ p ∈ fs, (strContains (pyLower p.1) "pdf" || strContains (pyLower p.1) "epub") = false) :
    pg_book_results book = .ok [] := by
  unfold pg_book_results
  rw [hfmt]
  show fs.foldlM (pg_fmt_step book) [] = .ok []
  exact pg_fmt_fold_no_match book fs [] hfs

end DownloadBooks

namespace GetBookLinks

theorem ol_item_obj_ok (fields : List (String × JValue)) :
    ol_item (.obj fields) = .ok
      { title := (JValue.lookupField fields "title").getD .null,
        authors := (JValue.lookupField fields "author_name").getD (.arr []),
        download_link := .str ("https://openlibrary.org"
          ++ ((JValue.lookupField fields "key").getD .null).pyStr) } := rfl

theorem search_open_library_no_filter (docs : List (List (String × JValue))) :
    ∃ l, search_open_library (.ok (.obj [("docs", .arr (docs.map JValue.obj))])) = .ok l
      ∧ l.length = docs.length := by
  have hmem : ∀ x ∈ docs.map JValue.obj, ∃ y, ol_item x = .ok y := by
    intro x hx
    rcases List.mem_map.1 hx with ⟨fields, hf, rfl⟩
    exact ⟨_, ol_item_obj_ok fields⟩
  obtain ⟨l, hl, hlen⟩ := mapM_ok_length ol_item (docs.map JValue.obj) hmem
  refine ⟨l, ?_, by rw [hlen]; simp⟩
  have hbody : search_open_library_body (.ok (.obj [("docs", .arr (docs.map JValue.obj))]))
      = (docs.map JValue.obj).mapM ol_item := rfl
  unfold search_open_library
  rw [hbody, hl]
  rfl

/-- The shape of a Google Books item carrying the two keys `gb_item`
subscripts; the inner field lists are arbitrary. -/
def gbItem (p : List (String × JValue) × List (String × JValue)) : JValue :=
  .obj [("volumeInfo", .obj p.1), ("accessInfo", .obj p.2)]

theorem gb_item_obj_ok (vi ai : List (String × JValue)) :
    gb_item (gbItem (vi, ai)) = .ok
      { title := (JValue.lookupField vi "title").getD .null,
        authors := (JValue.lookupField vi "authors").getD (.arr []),
        download_link := (JValue.lookupField ai "webReaderLink").getD (.str "N/A") } := rfl

theorem search_google_books_no_filter
    (items : List (List (String × JValue) × List (String × JValue))) :
    ∃ l, search_google_books (.ok (.obj [("items", .arr (items.map gbItem))])) = .ok l
      ∧ l.length = items.length := by
  have hmem : ∀ x ∈ items.map gbItem, ∃ y, gb_item x = .ok y := by
    intro x hx
    rcases List.mem_map.1 hx with ⟨p, hp, rfl⟩
    exact ⟨_, gb_item_obj_ok p.1 p.2⟩
  obtain ⟨l, hl, hlen⟩ := mapM_ok_length gb_item (items.map gbItem) hmem
  refine ⟨l, ?_, by rw [hlen]; simp⟩
  have hbody : search_google_books_body (.ok (.obj [("items", .arr (items.map gbItem))]))
      = (items.map gbItem).mapM gb_item := rfl
  unfold search_google_books
  rw [hbody, hl]
  rfl

end GetBookLinks

namespace DownloadBooks

/-- Concrete OpenLibrary response whose single doc advertises one `.pdf`
format. -/
def olPdfResp : Response := .ok (.obj [("docs", .arr [.obj [
  ("title", .str "T"), ("author_name", .arr [.str "X"]),
  ("formats", .arr [.str "http://a/b.pdf"])]])])

/-- The single result produced from `olPdfResp`. -/
def olPdfResult : BookResult :=
  { title := .str "T", author := "X", format := "PDF",
    source := "OpenLibrary", download_url := .str "http://a/b.pdf" }

/-- Concrete Gutendex book whose only format key matches neither `pdf` nor
`epub`. -/
def pgHtmlBook : JValue := .obj [("formats", .obj [("text/html", .str "u")])]

end DownloadBooks

/-- C4: the claim extends the PDF/EPUB filter to every catalog search function
in both scripts, but `get_book_links.py` filters nothing: at this concrete
input a doc carrying no format information at all is still converted into an
output entry. -/
theorem C4_no_filter_counterexample :
    GetBookLinks.search_open_library
        (.ok (.obj [("docs", .arr [.obj [("title", .str "T")]])]))
      = .ok [{ title := .str "T", authors := .arr [],
               download_link := .str "https://openlibrary.orgNone" }] := rfl

/-- C4 (amended): in `download_books.py` the OpenLibrary search converts only
format entries containing ".pdf"/".epub" case-insensitively (every output's
download_url is such a string) and the Gutenberg search converts nothing when
no format key contains "pdf"/"epub"; the search functions of
`get_book_links.py` apply no format filter: `search_open_library` converts
every doc, and `search_google_books` converts every item carrying the
`volumeInfo`/`accessInfo` keys it subscripts, in both cases with no condition
on any format field. -/
theorem C4_filter_semantics :
    (∀ (resp : Response) (l : List DownloadBooks.BookResult) (r : DownloadBooks.BookResult),
        DownloadBooks.search_open_library resp = .ok l → r ∈ l →
        DownloadBooks.pdfEpubUrl r) ∧
    (∀ (book : JValue) (fs : List (String × JValue)),
        JValue.getD book "formats" (.obj []) = .ok (.obj fs) →
        (∀ p ∈ fs, (strContains (pyLower p.1) "pdf" || strContains (pyLower p.1) "epub") = false) →
        DownloadBooks.pg_book_results book = .ok []) ∧
    (∀ docs : List (List (String × JValue)),
        ∃ l, GetBookLinks.search_open_library
            (.ok (.obj [("docs", .arr (docs.map JValue.obj))])) = .ok l
          ∧ l.length = docs.length) ∧
    (∀ items : List (List (String × JValue) × List (String × JValue)),
        ∃ l, GetBookLinks.search_google_books
            (.ok (.obj [("items", .arr (items.map GetBookLinks.gbItem))])) = .ok l
          ∧ l.length = items.length) := by
  refine ⟨?_, ?_, GetBookLinks.search_open_library_no_filter,
    GetBookLinks.search_google_books_no_filter⟩
  · intro resp l r hl hr
    exact DownloadBooks.search_open_library_filter resp l hl r hr
  · intro book fs hfmt hfs
    exact DownloadBooks.pg_book_results_no_match book fs hfmt hfs

/-- Witness for C4 (amended) at concrete inputs: the `.pdf` response yields a
result with a `.pdf` URL, and the HTML-only Gutendex book yields nothing. -/
theorem C4_filter_semantics_witness :
    DownloadBooks.pdfEpubUrl DownloadBooks.olPdfResult ∧
    DownloadBooks.pg_book_results DownloadBooks.pgHtmlBook = .ok [] :=
  ⟨C4_filter_semantics.1 DownloadBooks.olPdfResp [DownloadBooks.olPdfResult]
      DownloadBooks.olPdfResult rfl (by decide),
   C4_filter_semantics.2.1 DownloadBooks.pgHtmlBook [("text/html", .str "u")] rfl (by decide)⟩

namespace DownloadBooks

/-- Gutendex response with one book by the single author Jane Austen offering
one PDF format — the concrete payload named by claim C5. -/
def pgJaneResp : Response := .ok (.obj [("results", .arr [.obj [
  ("title", .str "Pride and Prejudice"),
  ("authors", .arr [.obj [("name", .str "Jane Austen")]]),
  ("formats", .obj [("application/pdf", .str "http://x/pp.pdf")])]])])

end DownloadBooks

/-- C5: the claim says the author field comma-joins the author names and is
"Jane Austen" for a Gutendex entry with authors [Jane Austen]; the code
instead evaluates `", ".join(book.get("authors", ...)[0].get("name"))`, which
joins the CHARACTERS of the first author's name, yielding
"J, a, n, e,  , A, u, s, t, e, n". -/
theorem C5_author_join_characters :
    DownloadBooks.search_project_gutenberg DownloadBooks.pgJaneResp
      = .ok [{ title := .str "Pride and Prejudice",
               author := "J, a, n, e,  , A, u, s, t, e, n",
               format := "PDF", source := "Project Gutenberg",
               download_url := .str "http://x/pp.pdf" }] ∧
    "J, a, n, e,  , A, u, s, t, e, n" ≠ "Jane Austen" :=
  ⟨rfl, by decide⟩

/-- The filename rule as the specification words it: strip every character
that is not alphanumeric, space, hyphen, or underscore; trim trailing
whitespace; append a period and the lowercase format extension. Stated only
for comparison with the code's `download_filename`. -/
def spec_filename (title fmt : String) : String :=
  String.mk (pyRstripChars (title.data.filter
    (fun c => decide (c.isAlphanum = true ∨ c = ' ' ∨ c = '-' ∨ c = '_'))))
    ++ "." ++ pyLower fmt

/-- C7: the download filename equals the title filtered to alphanumerics,
spaces, hyphens and underscores, right-trimmed, with a period and the
lowercase extension appended — and "A/B: Test*" with format PDF yields
"AB Test.pdf". -/
theorem C7_filename_sanitization :
    (∀ title fmt, DownloadBooks.download_filename title fmt = spec_filename title fmt) ∧
    DownloadBooks.download_filename "A/B: Test*" "PDF" = "AB Test.pdf" := by
  constructor
  · intro title fmt
    unfold DownloadBooks.download_filename spec_filename DownloadBooks.safe_title
    have hpred : (fun c : Char => c.isAlphanum || c == ' ' || c == '-' || c == '_')
        = (fun c : Char => decide (c.isAlphanum = true ∨ c = ' ' ∨ c = '-' ∨ c = '_')) := by
      funext c
      by_cases h1 : c.isAlphanum = true <;> by_cases h2 : c = ' ' <;>
        by_cases h3 : c = '-' <;> by_cases h4 : c = '_' <;>
        simp [h1, h2, h3, h4]
    rw [hpred]
  · rfl

/-- C8: on a response with content length 16384 delivered as two 8192-byte
chunks the reported progress values are [50%, 100%]: strictly increasing and
ending at 100. -/
theorem C8_progress_two_chunks :
    DownloadBooks.progress_percents 16384 0 [8192, 8192] = [50, 100] ∧
    List.Chain' (· < ·) (DownloadBooks.progress_percents 16384 0 [8192, 8192]) ∧
    (DownloadBooks.progress_percents 16384 0 [8192, 8192]).getLast? = some 100 := by
  have h : DownloadBooks.progress_percents 16384 0 [8192, 8192] = [50, 100] := by
    norm_num [DownloadBooks.progress_percents]
  refine ⟨h, ?_, ?_⟩
  · rw [h]
    norm_num [List.chain'_cons, List.chain'_singleton]
  · rw [h]
    rfl

namespace DownloadBooks

theorem selection_step_select_mem (results : List BookResult) (choice : String)
    (r : BookResult) (h : selection_step results choice = .select r) : r ∈ results := by
  unfold selection_step at h
  by_cases hq : pyLower choice = "q"
  · rw [if_pos hq] at h
    cases h
  · rw [if_neg hq] at h
    cases hp : pyInt choice with
    | none => rw [hp] at h; cases h
    | some n =>
      rw [hp] at h
      dsimp only [] at h
      by_cases hc : 0 ≤ n - 1 ∧ n - 1 < (results.length : Int)
      · rw [if_pos hc] at h
        injection h with h
        have hlt : (n - 1).toNat < results.length := by omega
        have hget : results.getD (n - 1).toNat default = results.get ⟨(n - 1).toNat, hlt⟩ := by
          rw [List.getD_eq_getElem?_getD, List.getElem?_eq_getElem hlt]
          rfl
        rw [← h, hget]
        exact List.get_mem results (n - 1).toNat hlt
      · rw [if_neg hc] at h
        cases h

theorem display_loop_mem (results : List BookResult) :
    ∀ (inputs : List String) (errors n : Nat) (r : BookResult) (rest : List String),
      display_loop results inputs errors = (some (some r), n, rest) → r ∈ results := by
  intro inputs
  induction inputs with
  | nil =>
    intro errors n r rest h
    simp [display_loop] at h
  | cons choice rest0 ih =>
    intro errors n r rest h
    cases hstep : selection_step results choice with
    | quit => simp [display_loop, hstep] at h
    | select r2 =>
      simp [display_loop, hstep] at h
      rw [← h.1]
      exact selection_step_select_mem results choice r2 hstep
    | invalid =>
      simp only [display_loop, hstep] at h
      exact ih (errors + 1) n r rest h

end DownloadBooks

/-- C6: against a 2-item list, the input sequence ["0", "-1", "abc", "2"]
produces three rejections (one error message and re-prompt each) and then
returns the second item; in general every non-quit input that does not parse
as an integer or is out of range makes the iteration invalid, and an invalid
iteration consumes the input, counts one message and loops — it never
terminates the loop. -/
theorem C6_reprompts_then_second :
    (∀ b1 b2 : DownloadBooks.BookResult,
      DownloadBooks.display_results [b1, b2] ["0", "-1", "abc", "2"]
        = (some (some b2), 3, [])) ∧
    (∀ (results : List DownloadBooks.BookResult) (choice : String),
      pyLower choice ≠ "q" →
      (pyInt choice = none ∨
        ∀ n, pyInt choice = some n → ¬(1 ≤ n ∧ n ≤ (results.length : Int))) →
      DownloadBooks.selection_step results choice = .invalid) ∧
    (∀ (results : List DownloadBooks.BookResult) (choice : String)
        (rest : List String) (errors : Nat),
      DownloadBooks.selection_step results choice = .invalid →
      DownloadBooks.display_loop results (choice :: rest) errors
        = DownloadBooks.display_loop results rest (errors + 1)) := by
  refine ⟨?_, ?_, ?_⟩
  · intro b1 b2
    rfl
  · intro results choice hq hbad
    unfold DownloadBooks.selection_step
    rw [if_neg hq]
    cases hp : pyInt choice with
    | none => rfl
    | some n =>
      rcases hbad with h | h
      · rw [hp] at h
        cases h
      · have hn := h n hp
        dsimp only []
        rw [if_neg (fun hcond => hn (by omega))]
  · intro results choice rest errors hstep
    simp only [DownloadBooks.display_loop, hstep]

/-- Witness for C6 at concrete inputs: "abc" is rejected against the empty
list and the loop re-prompts consuming it. -/
theorem C6_reprompts_then_second_witness :
    DownloadBooks.selection_step [] "abc" = .invalid ∧
    DownloadBooks.display_loop [] ["abc"] 0 = DownloadBooks.display_loop [] [] 1 :=
  ⟨C6_reprompts_then_second.2.1 [] "abc" (by decide) (Or.inl rfl),
   C6_reprompts_then_second.2.2 [] "abc" [] 0
     (C6_reprompts_then_second.2.1 [] "abc" (by decide) (Or.inl rfl))⟩

/-- C9: `display_results` only ever hands back an element of the list it was
given — an accepted integer k selects exactly the k-th (1-indexed) element —
and an empty result list short-circuits to None with no input consumed. -/
theorem C9_selection_sound :
    (∀ (results : List DownloadBooks.BookResult) (inputs : List String)
        (r : DownloadBooks.BookResult) (n : Nat) (rest : List String),
      DownloadBooks.display_results results inputs = (some (some r), n, rest) →
      r ∈ results) ∧
    (∀ (results : List DownloadBooks.BookResult) (choice : String) (k : Int),
      pyLower choice ≠ "q" → pyInt choice = some k →
      1 ≤ k → k ≤ (results.length : Int) →
      ∃ h : (k - 1).toNat < results.length,
        DownloadBooks.selection_step results choice
          = .select (results.get ⟨(k - 1).toNat, h⟩)) ∧
    (∀ inputs : List String,
      DownloadBooks.display_results [] inputs = (some none, 0, inputs)) := by
  refine ⟨?_, ?_, ?_⟩
  · intro results inputs r n rest h
    unfold DownloadBooks.display_results at h
    by_cases he : results.isEmpty
    · rw [if_pos he] at h
      simp at h
    · rw [if_neg he] at h
      exact DownloadBooks.display_loop_mem results inputs 0 n r rest h
  · intro results choice k hq hp h1 hk
    have hlt : (k - 1).toNat < results.length := by omega
    refine ⟨hlt, ?_⟩
    unfold DownloadBooks.selection_step
    rw [if_neg hq, hp]
    dsimp only []
    rw [if_pos (by constructor <;> omega : 0 ≤ k - 1 ∧ k - 1 < (results.length : Int))]
    congr 1
    rw [List.getD_eq_getElem?_getD, List.getElem?_eq_getElem hlt]
    rfl
  · intro inputs
    rfl

/-- Witness for C9 at concrete inputs: input "1" on a singleton list returns
its element, and input "2" on a 2-item list selects index 1. -/
theorem C9_selection_sound_witness :
    DownloadBooks.sampleA ∈ [DownloadBooks.sampleA, DownloadBooks.sampleC] ∧
    ∃ h : ((2 : Int) - 1).toNat < [DownloadBooks.sampleA, DownloadBooks.sampleC].length,
      DownloadBooks.selection_step [DownloadBooks.sampleA, DownloadBooks.sampleC] "2"
        = .select ([DownloadBooks.sampleA, DownloadBooks.sampleC].get ⟨((2 : Int) - 1).toNat, h⟩) :=
  ⟨C9_selection_sound.1 [DownloadBooks.sampleA, DownloadBooks.sampleC] ["1"]
      DownloadBooks.sampleA 0 [] rfl,
   C9_selection_sound.2.1 [DownloadBooks.sampleA, DownloadBooks.sampleC] "2" 2
      (by decide) rfl (by decide) (by decide)⟩

/-- C10: when either entered name strips to the empty string, `fetch_books`
returns before querying any source: the outcome is the early return `none`
and does not depend on either response. -/
theorem C10_empty_input_no_query
    (book_name author_name : String) (g ol : Response)
    (h : pyStrip book_name = "" ∨ pyStrip author_name = "") :
    GetBookLinks.fetch_books book_name author_name g ol = none ∧
    ∀ g2 ol2, GetBookLinks.fetch_books book_name author_name g ol
      = GetBookLinks.fetch_books book_name author_name g2 ol2 := by
  constructor
  · simp only [GetBookLinks.fetch_books]
    rw [if_pos h]
  · intro g2 ol2
    simp only [GetBookLinks.fetch_books]
    rw [if_pos h, if_pos h]

/-- Witness for C10: a whitespace-only book name yields the early return. -/
theorem C10_empty_input_no_query_witness :
    GetBookLinks.fetch_books "   " "Jane Austen" .netError .netError = none :=
  (C10_empty_input_no_query "   " "Jane Austen" .netError .netError (Or.inl rfl)).1
